import Mathlib

/-!
Shallow embedding of the Quantum Password Strength Analyzer (`src/main.py`)
core numeric library: `estimate_entropy`, `classical_time_seconds`,
`grover_time_seconds`, `human_time`, `time_to_percent_years`, and the
module-level comparative length sweep.

Modelling conventions:
* Python strings are `List Char`.
* Python floats are modelled two ways.  Where the claims are about exact
  numeric relations we use an exact-real model (`PyFloat`, payload `ℝ`):
  arithmetic is exact, `+inf` and `nan` are explicit constructors.  Where the
  claims are about overflow/exception behaviour we use `classical_time_fl` /
  `grover_time_fl`, which model CPython's `float.__pow__` raising
  `OverflowError` when the result exceeds the double range, and float
  division silently overflowing to `+inf`.
* `human_time` formats numbers, so there we use an exact-rational model
  (`QFloat`, payload `ℚ`): every finite double is a rational, and Python's
  fixed-point formatting rounds half-to-even, reproduced exactly by
  `formatFixed`.
* Python's `str.islower` / `str.isupper` / `str.isdigit` are Unicode-aware.
  They are modelled here over the Basic Latin and Latin-1 Supplement ranges
  (code points 0–255), which cover every character appearing in this
  development; the code-point lists below are exactly CPython's
  classification of that range.
-/

namespace QPSA

/-! ## Character classification (Python `str` predicates, Latin-1 range) -/

/-- Python `c.islower()` restricted to code points 0–255: `a`–`z` (97–122)
plus the Latin-1 lowercase letters ª (170), µ (181), º (186), ß–ö (223–246),
ø–ÿ (248–255). -/
def pyIsLower (c : Char) : Bool :=
  (97 ≤ c.toNat && c.toNat ≤ 122) || (c.toNat == 170) || (c.toNat == 181) ||
  (c.toNat == 186) || (223 ≤ c.toNat && c.toNat ≤ 246) ||
  (248 ≤ c.toNat && c.toNat ≤ 255)

/-- Python `c.isupper()` restricted to code points 0–255: `A`–`Z` (65–90)
plus the Latin-1 uppercase letters À–Ö (192–214), Ø–Þ (216–222). -/
def pyIsUpper (c : Char) : Bool :=
  (65 ≤ c.toNat && c.toNat ≤ 90) || (192 ≤ c.toNat && c.toNat ≤ 214) ||
  (216 ≤ c.toNat && c.toNat ≤ 222)

/-- Python `c.isdigit()` restricted to code points 0–255: `0`–`9` (48–57)
plus the Latin-1 superscripts ² (178), ³ (179), ¹ (185). -/
def pyIsDigit (c : Char) : Bool :=
  (48 ≤ c.toNat && c.toNat ≤ 57) || (c.toNat == 178) || (c.toNat == 179) ||
  (c.toNat == 185)

/-- Python `c in string.punctuation`: the 32 ASCII punctuation characters,
code points 33–47, 58–64, 91–96, 123–126. -/
def isPunct (c : Char) : Bool :=
  (33 ≤ c.toNat && c.toNat ≤ 47) || (58 ≤ c.toNat && c.toNat ≤ 64) ||
  (91 ≤ c.toNat && c.toNat ≤ 96) || (123 ≤ c.toNat && c.toNat ≤ 126)

/-! ## Effective pool size (`POOL_SIZES` and the four `any` checks,
`src/main.py` lines 43, 46–50; the sweep repeats the same four checks at
lines 161–165). -/

def POOL_lower : ℕ := 26
def POOL_upper : ℕ := 26
def POOL_digits : ℕ := 10
def POOL_symbols : ℕ := 32

/-- The pool accumulation of `estimate_entropy` (lines 46–50): start at 0 and
add each sub-pool size whose character class is present. -/
def poolSize (password : List Char) : ℕ :=
  (cond (password.any pyIsLower) POOL_lower 0) +
  (cond (password.any pyIsUpper) POOL_upper 0) +
  (cond (password.any pyIsDigit) POOL_digits 0) +
  (cond (password.any isPunct) POOL_symbols 0)

/-! ## Rational-float model and `human_time` -/

/-- Exact-rational model of a Python float: a finite value (every finite
double is rational), `+inf`, or `nan`. -/
inductive QFloat where
  | fin (q : ℚ)
  | inf
  | nan
deriving DecidableEq

/-- Round a rational to an integer, ties to even — the rounding used by
CPython's fixed-point float formatting. -/
def roundHalfEven (x : ℚ) : ℤ :=
  let f := ⌊x⌋
  let r := x - f
  if r < 1/2 then f
  else if 1/2 < r then f + 1
  else if f % 2 = 0 then f else f + 1

/-- Left-pad a string with `0` up to length `len`. -/
def padZeros (s : String) (len : ℕ) : String :=
  String.mk (List.replicate (len - s.length) '0') ++ s

/-- Python `f"{x:.prec f}"` on an exact rational: round `x * 10^prec` half to
even, then print with the decimal point inserted.  (Negative zero, which the
analyzer never produces, is not distinguished.) -/
def formatFixed (q : ℚ) (prec : ℕ) : String :=
  (if roundHalfEven (q * (10 : ℚ) ^ prec) < 0 then "-" else "") ++
  toString ((roundHalfEven (q * (10 : ℚ) ^ prec)).natAbs / 10 ^ prec) ++ "." ++
  padZeros (toString ((roundHalfEven (q * (10 : ℚ) ^ prec)).natAbs % 10 ^ prec)) prec

/-- `human_time` (`src/main.py` lines 55–69).  `seconds != seconds` is the
Python NaN test; both NaN and `+inf` render as `"∞"`. -/
def human_time (seconds : QFloat) : String :=
  match seconds with
  | .nan => "∞"
  | .inf => "∞"
  | .fin s =>
    if s < 1 then formatFixed s 3 ++ " s"
    else if s < 60 then formatFixed s 2 ++ " s"
    else if s < 3600 then formatFixed (s / 60) 2 ++ " min"
    else if s < 86400 then formatFixed (s / 3600) 2 ++ " hr"
    else if s < 31536000 then formatFixed (s / 86400) 2 ++ " days"
    else formatFixed (s / 31536000) 2 ++ " years"

/-! ## Exact-real float model, entropy and crack times -/

/-- Exact-real model of a Python float: a finite value, `+inf`, or `nan`. -/
inductive PyFloat where
  | fin (x : ℝ)
  | inf
  | nan

/-- Python `round(x, 2)`: round to 2 decimal places.  (CPython rounds half to
even on the underlying double; Mathlib's `round` rounds half up.  The two
differ only when `100 * x` is an exact half-integer, which never happens for
the analyzer's entropies: achievable nonzero pools give `log2 pool` either
irrational or the integer 5.) -/
noncomputable def pyRound2 (x : ℝ) : ℝ := (round (x * 100) : ℤ) / 100

/-- `estimate_entropy` (`src/main.py` lines 45–53): sum the pool sizes of the
character classes present; 0.0 for an empty pool, else
`round(log2(pool) * len(password), 2)`. -/
noncomputable def estimate_entropy (password : List Char) : ℝ :=
  if poolSize password = 0 then 0
  else pyRound2 (Real.logb 2 (poolSize password) * password.length)

/-- `classical_time_seconds` (lines 71–75) in the exact-real model:
`inf` when `ops_per_sec <= 0`, else `2^entropy_bits / ops_per_sec`, halved
when `average`.  (Double overflow is modelled separately by
`classical_time_fl`.) -/
noncomputable def classical_time_seconds (entropy_bits ops_per_sec : ℝ)
    (average : Bool) : PyFloat :=
  if ops_per_sec ≤ 0 then .inf
  else
    let full := (2 : ℝ) ^ entropy_bits / ops_per_sec
    .fin (if average then full / 2 else full)

/-- `grover_time_seconds` (lines 77–81) in the exact-real model: as
`classical_time_seconds` but with exponent `entropy_bits / 2`. -/
noncomputable def grover_time_seconds (entropy_bits quantum_ops_per_sec : ℝ)
    (average : Bool) : PyFloat :=
  if quantum_ops_per_sec ≤ 0 then .inf
  else
    let full := (2 : ℝ) ^ (entropy_bits / 2) / quantum_ops_per_sec
    .fin (if average then full / 2 else full)

/-- Python `<` on the float model: `nan` compares false with everything,
`fin _ < inf` is true. -/
def pyLt : PyFloat → PyFloat → Prop
  | .fin x, .fin y => x < y
  | .fin _, .inf => True
  | _, _ => False

/-! ## Overflow-aware crack times

CPython evaluates `2**entropy_bits` (a float exponent) through
`float.__pow__`, which raises `OverflowError` when the true result exceeds
the double range — it does NOT return `+inf`.  `2^x` exceeds the largest
double exactly when `x ≥ 1024` up to a boundary sliver of width `< 2^-50`
(unreachable: the analyzer's entropies are multiples of 1/100).  Float
division, by contrast, overflows silently to `+inf`. -/

inductive PyErr where
  | overflowError
  | valueError
deriving DecidableEq

/-- Python float division `x / ops` with `ops > 0`: silently `+inf` when the
quotient exceeds the double range (threshold `2^1024`, boundary rounding one
ulp below it not modelled), else the exact quotient. -/
noncomputable def pyDivFl (x ops : ℝ) : PyFloat :=
  if (2 : ℝ) ^ (1024 : ℕ) ≤ x / ops then .inf else .fin (x / ops)

/-- Halving (`full/2`) on the float model: cannot overflow. -/
noncomputable def pyHalf : PyFloat → PyFloat
  | .fin x => .fin (x / 2)
  | .inf => .inf
  | .nan => .nan

/-- `classical_time_seconds` with double overflow modelled: `2**entropy_bits`
raises `OverflowError` when `entropy_bits ≥ 1024`; the subsequent division
overflows silently to `+inf`. -/
noncomputable def classical_time_fl (entropy_bits ops_per_sec : ℝ)
    (average : Bool) : Except PyErr PyFloat :=
  if ops_per_sec ≤ 0 then .ok .inf
  else if (1024 : ℝ) ≤ entropy_bits then .error .overflowError
  else
    let full := pyDivFl ((2 : ℝ) ^ entropy_bits) ops_per_sec
    .ok (if average then pyHalf full else full)

/-- `grover_time_seconds` with double overflow modelled: the exponent is
`entropy_bits / 2`, so the pow raises when `entropy_bits ≥ 2048`. -/
noncomputable def grover_time_fl (entropy_bits quantum_ops_per_sec : ℝ)
    (average : Bool) : Except PyErr PyFloat :=
  if quantum_ops_per_sec ≤ 0 then .ok .inf
  else if (1024 : ℝ) ≤ entropy_bits / 2 then .error .overflowError
  else
    let full := pyDivFl ((2 : ℝ) ^ (entropy_bits / 2)) quantum_ops_per_sec
    .ok (if average then pyHalf full else full)

/-! ## `time_to_percent_years` -/

/-- Python `int(x)` on a float: truncate toward zero. -/
noncomputable def pyTrunc (x : ℝ) : ℤ := if 0 ≤ x then ⌊x⌋ else -⌊-x⌋

/-- `time_to_percent_years` (`src/main.py` lines 83–90).  On `+inf`:
`inf <= 1` is false, `inf / 31536000 = inf`, `inf >= 100` is true, so the
result is 100.  On `nan`: both comparisons are false, `log10(nan + 1) = nan`,
and `int(nan)` raises `ValueError`. -/
noncomputable def time_to_percent_years (seconds : PyFloat) : Except PyErr ℤ :=
  match seconds with
  | .inf => .ok 100
  | .nan => .error .valueError
  | .fin s =>
    if s ≤ 1 then .ok 0
    else if 100 ≤ s / (3600 * 24 * 365) then .ok 100
    else .ok (max 0 (min 100
      (pyTrunc (Real.logb 10 (s / (3600 * 24 * 365) + 1) / 2 * 100))))

/-! ## The comparative length sweep (`src/main.py` lines 160–174) -/

/-- The sweep's pool (lines 161–167): the same four `any` checks as
`estimate_entropy`, then the lowercase pool 26 substituted when the result
is 0. -/
def sweepPool (password : List Char) : ℕ :=
  let pool := poolSize password
  if pool = 0 then POOL_lower else pool

/-- Python `math.log2`: raises `ValueError` on a non-positive argument. -/
noncomputable def mathLog2 (x : ℝ) : Except PyErr ℝ :=
  if x ≤ 0 then .error .valueError else .ok (Real.logb 2 x)

/-- Python `t + 1` on the float model. -/
noncomputable def pyAdd1 : PyFloat → PyFloat
  | .fin x => .fin (x + 1)
  | .inf => .inf
  | .nan => .nan

/-- Python `math.log10` on the float model: `ValueError` on a non-positive
finite argument, `inf` on `inf`, `nan` on `nan`. -/
noncomputable def mathLog10 : PyFloat → Except PyErr PyFloat
  | .fin x => if x ≤ 0 then .error .valueError else .ok (.fin (Real.logb 10 x))
  | .inf => .ok .inf
  | .nan => .ok .nan

/-- One row of the sweep (lines 170–174): entropy `log2(pool) * l`, the two
average crack times, and `log10(t + 1)` for each. -/
noncomputable def sweepRow (pool : ℕ) (c_ops q_ops : ℝ) (l : ℕ) :
    Except PyErr (ℕ × ℝ × PyFloat × PyFloat) := do
  let lg ← mathLog2 pool
  let e := lg * l
  let c_t := classical_time_seconds e c_ops true
  let q_t := grover_time_seconds e q_ops true
  let lc ← mathLog10 (pyAdd1 c_t)
  let lq ← mathLog10 (pyAdd1 q_t)
  pure (l, e, lc, lq)

/-- The whole sweep: rows for lengths 4–32 (`list(range(4, 33))`). -/
noncomputable def sweepData (password : List Char) (c_ops q_ops : ℝ) :
    Except PyErr (List (ℕ × ℝ × PyFloat × PyFloat)) :=
  (List.range' 4 29).mapM (sweepRow (sweepPool password) c_ops q_ops)

/-! ## Helper lemmas -/

/-- The four character classes are pairwise disjoint (on code points 0–255 as
classified by CPython): a lowercase character is in no other class. -/
theorem lower_disjoint (c : Char) (h : pyIsLower c = true) :
    pyIsUpper c = false ∧ pyIsDigit c = false ∧ isPunct c = false := by
  simp only [pyIsLower, pyIsUpper, pyIsDigit, isPunct, Bool.or_eq_true,
    Bool.and_eq_true, decide_eq_true_eq, beq_iff_eq, Bool.or_eq_false_iff,
    Bool.and_eq_false_iff, decide_eq_false_iff_not, not_le, beq_eq_false_iff_ne,
    ne_eq] at h ⊢
  omega

/-- A nonempty all-lowercase password has effective pool size exactly 26. -/
theorem poolSize_all_lower (p : List Char) (hne : p ≠ [])
    (h : ∀ c ∈ p, pyIsLower c = true) : poolSize p = 26 := by
  obtain ⟨c, hc⟩ := List.exists_mem_of_ne_nil p hne
  have h1 : p.any pyIsLower = true := List.any_eq_true.mpr ⟨c, hc, h c hc⟩
  have h2 : p.any pyIsUpper = false :=
    List.any_eq_false.mpr fun d hd => by simp [(lower_disjoint d (h d hd)).1]
  have h3 : p.any pyIsDigit = false :=
    List.any_eq_false.mpr fun d hd => by simp [(lower_disjoint d (h d hd)).2.1]
  have h4 : p.any isPunct = false :=
    List.any_eq_false.mpr fun d hd => by simp [(lower_disjoint d (h d hd)).2.2]
  simp [poolSize, h1, h2, h3, h4, POOL_lower]

/-- `round(x, 2)` of a value at least 1 is positive. -/
theorem pyRound2_pos (x : ℝ) (hx : 1 ≤ x) : 0 < pyRound2 x := by
  unfold pyRound2
  have h100 : (100 : ℤ) ≤ round (x * 100) := by
    rw [round_eq]
    exact Int.le_floor.mpr (by push_cast; linarith)
  have : (100 : ℝ) ≤ ((round (x * 100) : ℤ) : ℝ) := by exact_mod_cast h100
  apply div_pos (by linarith) (by norm_num)

/-- `1 ≤ log2 26`. -/
theorem one_le_logb_two_26 : (1 : ℝ) ≤ Real.logb 2 26 :=
  (Real.le_logb_iff_rpow_le (by norm_num) (by norm_num)).mpr
    (by rw [Real.rpow_one]; norm_num)

/-- Unfolding of `time_to_percent_years` on a finite duration. -/
theorem time_to_percent_years_fin (s : ℝ) :
    time_to_percent_years (.fin s) =
      if s ≤ 1 then .ok 0
      else if 100 ≤ s / (3600 * 24 * 365) then .ok 100
      else .ok (max 0 (min 100
        (pyTrunc (Real.logb 10 (s / (3600 * 24 * 365) + 1) / 2 * 100)))) := rfl

/-- Unfolding of `human_time` on a finite duration. -/
theorem human_time_fin (s : ℚ) :
    human_time (.fin s) =
      if s < 1 then formatFixed s 3 ++ " s"
      else if s < 60 then formatFixed s 2 ++ " s"
      else if s < 3600 then formatFixed (s / 60) 2 ++ " min"
      else if s < 86400 then formatFixed (s / 3600) 2 ++ " hr"
      else if s < 31536000 then formatFixed (s / 86400) 2 ++ " days"
      else formatFixed (s / 31536000) 2 ++ " years" := rfl

/-- Evaluation helper: once the rounding step is computed, `formatFixed` is
literal digit manipulation. -/
theorem formatFixed_of_round (q : ℚ) (prec : ℕ) (n : ℤ)
    (h : roundHalfEven (q * (10 : ℚ) ^ prec) = n) :
    formatFixed q prec =
      (if n < 0 then "-" else "") ++ toString (n.natAbs / 10 ^ prec) ++ "." ++
      padZeros (toString (n.natAbs % 10 ^ prec)) prec := by
  rw [formatFixed, h]

/-- `mapM` over `Except` succeeds pointwise. -/
theorem mapM_ok {α β : Type} (f : α → Except PyErr β) (g : α → β) :
    ∀ l : List α, (∀ a ∈ l, f a = .ok (g a)) → l.mapM f = .ok (l.map g) := by
  intro l h
  induction l with
  | nil => rfl
  | cons a t ih =>
    rw [List.mapM_cons, h a (List.mem_cons_self a t),
      ih fun b hb => h b (List.mem_cons_of_mem a hb)]
    rfl

/-- Monadic bind on `Except` past a success. -/
theorem except_bind_ok {α β : Type} (x : α) (f : α → Except PyErr β) :
    (Except.ok x >>= f : Except PyErr β) = f x := rfl

/-- Functorial map on `Except` past a success. -/
theorem except_map_ok {α β : Type} (x : α) (f : α → β) :
    (f <$> (Except.ok x : Except PyErr α)) = Except.ok (f x) := rfl

/-- A sweep row at pool 26 and positive throughputs is defined and has the
lowercase-projection shape. -/
theorem sweepRow_pool26 (c q : ℝ) (hc : 0 < c) (hq : 0 < q) (l : ℕ) :
    sweepRow 26 c q l = .ok (l, Real.logb 2 26 * l,
      .fin (Real.logb 10 ((2 : ℝ) ^ (Real.logb 2 26 * l) / c / 2 + 1)),
      .fin (Real.logb 10 ((2 : ℝ) ^ (Real.logb 2 26 * l / 2) / q / 2 + 1)))
    := by
  have h26 : ¬ (26 : ℝ) ≤ 0 := by norm_num
  have hnc : ¬ c ≤ 0 := not_le.mpr hc
  have hnq : ¬ q ≤ 0 := not_le.mpr hq
  have hpos1 : ¬ (2 : ℝ) ^ (Real.logb 2 26 * l) / c / 2 + 1 ≤ 0 := by
    push_neg
    have : (0 : ℝ) < (2 : ℝ) ^ (Real.logb 2 26 * l) / c / 2 :=
      div_pos (div_pos (Real.rpow_pos_of_pos two_pos _) hc) two_pos
    linarith
  have hpos2 : ¬ (2 : ℝ) ^ (Real.logb 2 26 * l / 2) / q / 2 + 1 ≤ 0 := by
    push_neg
    have : (0 : ℝ) < (2 : ℝ) ^ (Real.logb 2 26 * l / 2) / q / 2 :=
      div_pos (div_pos (Real.rpow_pos_of_pos two_pos _) hq) two_pos
    linarith
  simp [sweepRow, mathLog2, mathLog10, pyAdd1, classical_time_seconds,
    grover_time_seconds, h26, hnc, hnq, hpos1, hpos2, except_bind_ok,
    except_map_ok]

/-! ## Claim theorems -/

/-- C2, counterexample: the claim's pool-size set is wrong.  A digits-only
password (here `"7"`) has effective pool size 10, which is not in the
spec's set `{0, 26, 36, 46, 52, 58, 62, 68, 78, 88, 94}`. -/
theorem pool_not_in_spec_set_c2 :
    poolSize ['7'] ∉ ([0, 26, 36, 46, 52, 58, 62, 68, 78, 88, 94] : List ℕ) := by
  decide

/-- C2, amended: for every password the effective pool size lies in the set
of subset sums of `{26, 26, 10, 32}`, namely
`{0, 10, 26, 32, 36, 42, 52, 58, 62, 68, 84, 94}`. -/
theorem pool_subset_sums_c2 (p : List Char) :
    poolSize p ∈ ([0, 10, 26, 32, 36, 42, 52, 58, 62, 68, 84, 94] : List ℕ) := by
  unfold poolSize
  cases p.any pyIsLower <;> cases p.any pyIsUpper <;> cases p.any pyIsDigit <;>
    cases p.any isPunct <;> decide

/-- C3, counterexample: a string of only non-ASCII letters does NOT give
entropy 0.  Python's Unicode-aware `islower` classifies `é` as lowercase, so
`estimate_entropy "é"` is `round(log2 26, 2) = 4.7 ≠ 0`. -/
theorem nonascii_entropy_nonzero_c3 : estimate_entropy ['é'] ≠ 0 := by
  have hpool : poolSize ['é'] = 26 := by decide
  have h1 : (1 : ℝ) ≤ Real.logb 2 26 * ((1 : ℕ) : ℝ) := by
    simpa using one_le_logb_two_26
  simp only [estimate_entropy, hpool]
  norm_num
  exact (pyRound2_pos _ (by simpa using h1)).ne'

/-- C3, amended: every password that is empty or contains only characters
outside the four recognized classes (in Python's Unicode-aware
classification) has entropy exactly 0.0; in particular the empty string and
a string of only spaces.  (Non-ASCII letters are not outside the classes:
see the counterexample.) -/
theorem unclassified_zero_entropy_c3 (p : List Char)
    (h : ∀ c ∈ p, pyIsLower c = false ∧ pyIsUpper c = false ∧
      pyIsDigit c = false ∧ isPunct c = false) :
    estimate_entropy p = 0 := by
  have h1 : p.any pyIsLower = false := List.any_eq_false.mpr fun d hd => by
    simp [(h d hd).1]
  have h2 : p.any pyIsUpper = false := List.any_eq_false.mpr fun d hd => by
    simp [(h d hd).2.1]
  have h3 : p.any pyIsDigit = false := List.any_eq_false.mpr fun d hd => by
    simp [(h d hd).2.2.1]
  have h4 : p.any isPunct = false := List.any_eq_false.mpr fun d hd => by
    simp [(h d hd).2.2.2]
  simp [estimate_entropy, poolSize, h1, h2, h3, h4]

/-- C3, witness: the amended theorem applied to the empty password and to a
password of three spaces. -/
theorem unclassified_zero_entropy_c3_witness :
    estimate_entropy [] = 0 ∧ estimate_entropy [' ', ' ', ' '] = 0 :=
  ⟨unclassified_zero_entropy_c3 [] (by decide),
   unclassified_zero_entropy_c3 [' ', ' ', ' '] (by decide)⟩

/-- C6: for a non-zero pool the entropy is `round(log2(pool) * length, 2)`;
the pool is presence-based, so an all-lowercase password of any length gets
pool 26 and `"aA1!"` gets the full pool 94. -/
theorem entropy_formula_c6 :
    (∀ p : List Char, poolSize p ≠ 0 →
      estimate_entropy p = pyRound2 (Real.logb 2 (poolSize p) * p.length)) ∧
    (∀ p : List Char, p ≠ [] → (∀ c ∈ p, pyIsLower c = true) →
      estimate_entropy p = pyRound2 (Real.logb 2 26 * p.length)) ∧
    estimate_entropy ['a', 'A', '1', '!'] = pyRound2 (Real.logb 2 94 * 4) := by
  refine ⟨fun p hp => by simp [estimate_entropy, hp], fun p hne hall => ?_, ?_⟩
  · have hpool := poolSize_all_lower p hne hall
    simp [estimate_entropy, hpool]
  · have hpool : poolSize ['a', 'A', '1', '!'] = 94 := by decide
    simp [estimate_entropy, hpool]

/-- C6, witness: the all-lowercase part applied to the password `"a"`. -/
theorem entropy_formula_c6_witness :
    estimate_entropy ['a'] = pyRound2 (Real.logb 2 26) := by
  have h := entropy_formula_c6.2.1 ['a'] (by decide) (by decide)
  simpa using h

/-- C7: for any entropy ≥ 0 and non-positive throughput, both adversary
kinds and both average settings return `+inf` — in the exact-real model and
in the overflow-aware model alike. -/
theorem nonpos_ops_inf_c7 (e ops : ℝ) (avg : Bool) (he : 0 ≤ e)
    (hops : ops ≤ 0) :
    classical_time_seconds e ops avg = .inf ∧
    grover_time_seconds e ops avg = .inf ∧
    classical_time_fl e ops avg = .ok .inf ∧
    grover_time_fl e ops avg = .ok .inf := by
  simp [classical_time_seconds, grover_time_seconds, classical_time_fl,
    grover_time_fl, hops]

/-- C7, witness: entropy 0, throughput 0, both average settings. -/
theorem nonpos_ops_inf_c7_witness :
    (classical_time_seconds 0 0 true = .inf ∧
     grover_time_seconds 0 0 true = .inf ∧
     classical_time_fl 0 0 true = .ok .inf ∧
     grover_time_fl 0 0 true = .ok .inf) ∧
    classical_time_seconds 0 0 false = .inf :=
  ⟨nonpos_ops_inf_c7 0 0 true le_rfl le_rfl,
   (nonpos_ops_inf_c7 0 0 false le_rfl le_rfl).1⟩

/-- C8: at equal entropy and equal positive throughput (either average
setting), the quantum crack time is strictly below the classical one
whenever entropy is positive, and equals it at entropy 0. -/
theorem quantum_faster_c8 (e ops : ℝ) (avg : Bool) (hops : 0 < ops) :
    (0 < e → pyLt (grover_time_seconds e ops avg)
      (classical_time_seconds e ops avg)) ∧
    (e = 0 → grover_time_seconds e ops avg = classical_time_seconds e ops avg)
    := by
  have hno : ¬ ops ≤ 0 := not_le.mpr hops
  constructor
  · intro he
    have hlt : (2 : ℝ) ^ (e / 2) < (2 : ℝ) ^ e := by
      rw [Real.rpow_lt_rpow_left_iff (by norm_num)]
      linarith
    cases avg <;> simp [classical_time_seconds, grover_time_seconds, hno, pyLt]
      <;> gcongr
  · intro he
    subst he
    simp [classical_time_seconds, grover_time_seconds, hno]

/-- C8, witness: entropy 2, throughput 1, average case. -/
theorem quantum_faster_c8_witness :
    pyLt (grover_time_seconds 2 1 true) (classical_time_seconds 2 1 true) :=
  (quantum_faster_c8 2 1 true (by norm_num)).1 (by norm_num)

/-- C4, counterexample: `time_to_percent_years` is NOT total on NaN — the
comparisons with NaN are false, `log10(nan + 1)` is NaN, and `int(nan)`
raises `ValueError`. -/
theorem percent_nan_raises_c4 :
    time_to_percent_years .nan = .error .valueError := rfl

/-- C4, amended: over non-negative reals and `+inf` the function is total
and returns an integer in `[0, 100]`: 0 when `seconds ≤ 1`, 100 when
`seconds` is at least 100 years (or `+inf`), and otherwise
`floor((log10(years + 1) / 2) * 100)` clamped into `[0, 100]`.  (On NaN it
raises `ValueError` — see the counterexample.) -/
theorem percent_total_c4 :
    (∀ s : ℝ, 0 ≤ s → ∃ n : ℤ,
      time_to_percent_years (.fin s) = .ok n ∧ 0 ≤ n ∧ n ≤ 100) ∧
    (∀ s : ℝ, s ≤ 1 → time_to_percent_years (.fin s) = .ok 0) ∧
    time_to_percent_years .inf = .ok 100 ∧
    (∀ s : ℝ, 100 * 31536000 ≤ s → time_to_percent_years (.fin s) = .ok 100) ∧
    (∀ s : ℝ, 1 < s → s / 31536000 < 100 →
      time_to_percent_years (.fin s) =
        .ok (max 0 (min 100 ⌊Real.logb 10 (s / 31536000 + 1) / 2 * 100⌋))) := by
  refine ⟨fun s _ => ?_, fun s h => by rw [time_to_percent_years_fin, if_pos h],
    rfl, fun s h => ?_, fun s h1 h2 => ?_⟩
  · rw [time_to_percent_years_fin]
    split_ifs with hc1 hc2
    · exact ⟨0, rfl, le_rfl, by norm_num⟩
    · exact ⟨100, rfl, by norm_num, le_rfl⟩
    · exact ⟨_, rfl, le_max_left _ _, max_le (by norm_num) (min_le_left _ _)⟩
  · have h1 : ¬ s ≤ 1 := by push_neg; nlinarith
    have h2 : (100 : ℝ) ≤ s / (3600 * 24 * 365) :=
      (le_div_iff₀ (by norm_num)).mpr (by linarith)
    rw [time_to_percent_years_fin, if_neg h1, if_pos h2]
  · have hyears : (0 : ℝ) < s / (3600 * 24 * 365) :=
      div_pos (by linarith) (by norm_num)
    have hlog : 0 ≤ Real.logb 10 (s / (3600 * 24 * 365) + 1) :=
      Real.logb_nonneg (by norm_num) (by linarith)
    have hc2 : ¬ (100 : ℝ) ≤ s / (3600 * 24 * 365) := by
      push_neg
      calc s / (3600 * 24 * 365) = s / 31536000 := by norm_num
        _ < 100 := h2
    rw [time_to_percent_years_fin, if_neg (not_le.mpr h1), if_neg hc2]
    have harg : (0 : ℝ) ≤ Real.logb 10 (s / (3600 * 24 * 365) + 1) / 2 * 100 :=
      by positivity
    rw [show pyTrunc (Real.logb 10 (s / (3600 * 24 * 365) + 1) / 2 * 100) =
        ⌊Real.logb 10 (s / (3600 * 24 * 365) + 1) / 2 * 100⌋
      from if_pos harg]
    norm_num

/-- C4, witness: the `seconds ≤ 1` arm applied at 1 second. -/
theorem percent_total_c4_witness : time_to_percent_years (.fin 1) = .ok 0 :=
  percent_total_c4.2.1 1 le_rfl

/-- C5, counterexample: for the empty password the average classical crack
time at throughput 1 is `2^0 / 1 / 2 = 0.5`, not 0. -/
theorem empty_password_time_c5 :
    classical_time_seconds (estimate_entropy []) 1 true ≠ .fin 0 := by
  have he : estimate_entropy [] = 0 := by simp [estimate_entropy, poolSize]
  rw [he]
  norm_num [classical_time_seconds, Real.rpow_zero]

/-- C5, amended: for the empty password the entropy is exactly 0.0, both
average crack times at throughput `ops > 0` equal `1 / (2 * ops)` (positive,
not 0), and whenever `ops ≥ 1/2` (so the time is ≤ 1 s — in particular the
app defaults 1e9 and 1e6) both safety percentages are 0. -/
theorem empty_password_pipeline_c5 (ops : ℝ) (hops : 0 < ops) :
    estimate_entropy [] = 0 ∧
    classical_time_seconds (estimate_entropy []) ops true =
      .fin (1 / (2 * ops)) ∧
    grover_time_seconds (estimate_entropy []) ops true =
      .fin (1 / (2 * ops)) ∧
    (1 / 2 ≤ ops →
      time_to_percent_years
        (classical_time_seconds (estimate_entropy []) ops true) = .ok 0 ∧
      time_to_percent_years
        (grover_time_seconds (estimate_entropy []) ops true) = .ok 0) := by
  have he : estimate_entropy [] = 0 := by simp [estimate_entropy, poolSize]
  have hno : ¬ ops ≤ 0 := not_le.mpr hops
  have hcl : classical_time_seconds (estimate_entropy []) ops true =
      .fin (1 / (2 * ops)) := by
    rw [he]
    simp [classical_time_seconds, hno, Real.rpow_zero]
    ring
  have hgr : grover_time_seconds (estimate_entropy []) ops true =
      .fin (1 / (2 * ops)) := by
    rw [he]
    simp [grover_time_seconds, hno, Real.rpow_zero]
    ring
  refine ⟨he, hcl, hgr, fun h => ?_⟩
  have hle : (1 : ℝ) / (2 * ops) ≤ 1 :=
    (div_le_one (by linarith)).mpr (by linarith)
  rw [hcl, hgr]
  constructor <;> · rw [time_to_percent_years_fin, if_pos hle]

/-- C5, witness: the amended theorem at the app's default classical
throughput `1e9`. -/
theorem empty_password_pipeline_c5_witness :
    estimate_entropy [] = 0 ∧
    classical_time_seconds (estimate_entropy []) (10 ^ 9) true =
      .fin (1 / (2 * 10 ^ 9)) ∧
    grover_time_seconds (estimate_entropy []) (10 ^ 9) true =
      .fin (1 / (2 * 10 ^ 9)) ∧
    time_to_percent_years
      (classical_time_seconds (estimate_entropy []) (10 ^ 9) true) = .ok 0 ∧
    time_to_percent_years
      (grover_time_seconds (estimate_entropy []) (10 ^ 9) true) = .ok 0 := by
  have h := empty_password_pipeline_c5 (10 ^ 9) (by norm_num)
  exact ⟨h.1, h.2.1, h.2.2.1, (h.2.2.2 (by norm_num)).1, (h.2.2.2 (by norm_num)).2⟩

/-- C1, counterexample: at entropy 1100 bits and positive throughput the
classical crack time does not overflow to `+inf` — CPython's float pow
raises `OverflowError`. -/
theorem pow_overflow_raises_c1 :
    classical_time_fl 1100 (10 ^ 9) true = .error .overflowError := by
  norm_num [classical_time_fl]

/-- C1, amended: for `ops ≤ 0` both functions return `+inf` without raising;
for `ops > 0` and entropy below the pow-overflow threshold (1024 bits
classical, 2048 quantum) no exception is raised, and overflow of the final
division silently yields `+inf` (the same sentinel as `ops ≤ 0`); but at or
above the threshold `2**entropy_bits` (resp. `2**(entropy_bits/2)`) raises
`OverflowError` instead of returning `+inf`. -/
theorem overflow_behavior_c1 :
    (∀ (e ops : ℝ) (avg : Bool), ops ≤ 0 →
      classical_time_fl e ops avg = .ok .inf ∧
      grover_time_fl e ops avg = .ok .inf) ∧
    (∀ (e ops : ℝ) (avg : Bool), 0 < ops → e < 1024 →
      ∃ v, classical_time_fl e ops avg = .ok v) ∧
    (∀ (e ops : ℝ) (avg : Bool), 0 < ops → 1024 ≤ e →
      classical_time_fl e ops avg = .error .overflowError) ∧
    (∀ (e ops : ℝ) (avg : Bool), 0 < ops → e < 2048 →
      ∃ v, grover_time_fl e ops avg = .ok v) ∧
    (∀ (e ops : ℝ) (avg : Bool), 0 < ops → 2048 ≤ e →
      grover_time_fl e ops avg = .error .overflowError) ∧
    (∀ (e ops : ℝ) (avg : Bool), 0 < ops → e < 1024 →
      (2 : ℝ) ^ (1024 : ℕ) ≤ (2 : ℝ) ^ e / ops →
      classical_time_fl e ops avg = .ok .inf) := by
  refine ⟨fun e ops avg h => ?_, fun e ops avg h h1 => ?_,
    fun e ops avg h h1 => ?_, fun e ops avg h h1 => ?_,
    fun e ops avg h h1 => ?_, fun e ops avg h h1 h2 => ?_⟩
  · simp [classical_time_fl, grover_time_fl, h]
  · rw [classical_time_fl, if_neg (not_le.mpr h), if_neg (not_le.mpr h1)]
    exact ⟨_, rfl⟩
  · rw [classical_time_fl, if_neg (not_le.mpr h), if_pos h1]
  · have : ¬ (1024 : ℝ) ≤ e / 2 := by
      push_neg
      linarith
    rw [grover_time_fl, if_neg (not_le.mpr h), if_neg this]
    exact ⟨_, rfl⟩
  · have h2 : (1024 : ℝ) ≤ e / 2 := by linarith
    rw [grover_time_fl, if_neg (not_le.mpr h), if_pos h2]
  · rw [classical_time_fl, if_neg (not_le.mpr h), if_neg (not_le.mpr h1)]
    cases avg <;> simp [pyDivFl, h2, pyHalf]

/-- C1, witness: concrete instances of the amended behaviour — no exception
at `ops = 0`; `OverflowError` at the thresholds 1024 (classical) and 2048
(quantum); silent `+inf` from division overflow at entropy 0 and throughput
`2^-1024`. -/
theorem overflow_behavior_c1_witness :
    classical_time_fl 0 0 true = .ok .inf ∧
    classical_time_fl 1024 1 true = .error .overflowError ∧
    grover_time_fl 2048 1 true = .error .overflowError ∧
    classical_time_fl 0 (((2 : ℝ) ^ (1024 : ℕ))⁻¹) true = .ok .inf := by
  refine ⟨(overflow_behavior_c1.1 0 0 true le_rfl).1,
    overflow_behavior_c1.2.2.1 1024 1 true (by norm_num) le_rfl,
    overflow_behavior_c1.2.2.2.2.1 2048 1 true (by norm_num) le_rfl,
    overflow_behavior_c1.2.2.2.2.2 0 _ true (by positivity) (by norm_num) ?_⟩
  rw [Real.rpow_zero, one_div, inv_inv]

/-- C9: `human_time` renders NaN and `+inf` as `"∞"`, sub-second durations
with 3 decimals and unit `s`, and otherwise selects the unit on half-open
intervals with thresholds 60, 3600, 86400, 31536000 (each boundary belongs
to the next larger unit) using 2 decimals. -/
theorem human_time_format_c9 :
    human_time .nan = "∞" ∧ human_time .inf = "∞" ∧
    (∀ q : ℚ, q < 1 → human_time (.fin q) = formatFixed q 3 ++ " s") ∧
    (∀ q : ℚ, 1 ≤ q → q < 60 →
      human_time (.fin q) = formatFixed q 2 ++ " s") ∧
    (∀ q : ℚ, 60 ≤ q → q < 3600 →
      human_time (.fin q) = formatFixed (q / 60) 2 ++ " min") ∧
    (∀ q : ℚ, 3600 ≤ q → q < 86400 →
      human_time (.fin q) = formatFixed (q / 3600) 2 ++ " hr") ∧
    (∀ q : ℚ, 86400 ≤ q → q < 31536000 →
      human_time (.fin q) = formatFixed (q / 86400) 2 ++ " days") ∧
    (∀ q : ℚ, 31536000 ≤ q →
      human_time (.fin q) = formatFixed (q / 31536000) 2 ++ " years") ∧
    human_time (.fin (1 / 2)) = "0.500 s" ∧
    human_time (.fin (59999 / 1000)) = "60.00 s" ∧
    human_time (.fin 60) = "1.00 min" ∧
    human_time (.fin 3600) = "1.00 hr" ∧
    human_time (.fin 86400) = "1.00 days" ∧
    human_time (.fin 31536000) = "1.00 years" := by
  refine ⟨rfl, rfl, fun q h => by rw [human_time_fin, if_pos h],
    fun q h1 h2 => by rw [human_time_fin, if_neg (not_lt.mpr h1), if_pos h2],
    fun q h1 h2 => by
      rw [human_time_fin, if_neg (not_lt.mpr (by linarith)),
        if_neg (not_lt.mpr h1), if_pos h2],
    fun q h1 h2 => by
      rw [human_time_fin, if_neg (not_lt.mpr (by linarith)),
        if_neg (not_lt.mpr (by linarith)), if_neg (not_lt.mpr h1), if_pos h2],
    fun q h1 h2 => by
      rw [human_time_fin, if_neg (not_lt.mpr (by linarith)),
        if_neg (not_lt.mpr (by linarith)), if_neg (not_lt.mpr (by linarith)),
        if_neg (not_lt.mpr h1), if_pos h2],
    fun q h1 => by
      rw [human_time_fin, if_neg (not_lt.mpr (by linarith)),
        if_neg (not_lt.mpr (by linarith)), if_neg (not_lt.mpr (by linarith)),
        if_neg (not_lt.mpr (by linarith)), if_neg (not_lt.mpr h1)],
    ?_, ?_, ?_, ?_, ?_, ?_⟩
  · rw [human_time_fin]
    norm_num
    rw [formatFixed_of_round _ _ 500 (by norm_num [roundHalfEven])]
    decide
  · rw [human_time_fin]
    norm_num
    rw [formatFixed_of_round _ _ 6000 (by norm_num [roundHalfEven])]
    decide
  · rw [human_time_fin]
    norm_num
    rw [formatFixed_of_round _ _ 100 (by norm_num [roundHalfEven])]
    decide
  · rw [human_time_fin]
    norm_num
    rw [formatFixed_of_round _ _ 100 (by norm_num [roundHalfEven])]
    decide
  · rw [human_time_fin]
    norm_num
    rw [formatFixed_of_round _ _ 100 (by norm_num [roundHalfEven])]
    decide
  · rw [human_time_fin]
    norm_num
    rw [formatFixed_of_round _ _ 100 (by norm_num [roundHalfEven])]
    decide

/-- C9, witness: the minutes branch at 100 seconds renders `"1.67 min"`. -/
theorem human_time_format_c9_witness : human_time (.fin 100) = "1.67 min" := by
  have h := human_time_format_c9.2.2.2.2.1 100 (by norm_num) (by norm_num)
  rw [h, formatFixed_of_round _ _ 167 (by norm_num [roundHalfEven])]
  decide

/-- C10: when the reference password's pool is 0, the sweep substitutes the
lowercase pool 26, so `log2` is never applied to 0 and every row for lengths
4–32 is defined (`ok`, finite entries), showing the lowercase-only
projection `log2(26) * length` even though the analyzed password itself has
entropy 0. -/
theorem sweep_zero_pool_c10 (pw : List Char) (hpool : poolSize pw = 0)
    (c q : ℝ) (hc : 0 < c) (hq : 0 < q) :
    sweepPool pw = 26 ∧ estimate_entropy pw = 0 ∧
    sweepData pw c q = .ok ((List.range' 4 29).map fun l =>
      (l, Real.logb 2 26 * l,
       .fin (Real.logb 10 ((2 : ℝ) ^ (Real.logb 2 26 * l) / c / 2 + 1)),
       .fin (Real.logb 10 ((2 : ℝ) ^ (Real.logb 2 26 * l / 2) / q / 2 + 1))))
    := by
  have hsp : sweepPool pw = 26 := by simp [sweepPool, hpool, POOL_lower]
  refine ⟨hsp, by simp [estimate_entropy, hpool], ?_⟩
  rw [sweepData, hsp]
  exact mapM_ok _ _ _ fun l _ => sweepRow_pool26 c q hc hq l

/-- C10, witness: a whitespace-only password at unit throughputs. -/
theorem sweep_zero_pool_c10_witness :
    sweepPool [' '] = 26 ∧ estimate_entropy [' '] = 0 ∧
    sweepData [' '] 1 1 = .ok ((List.range' 4 29).map fun l =>
      (l, Real.logb 2 26 * l,
       .fin (Real.logb 10 ((2 : ℝ) ^ (Real.logb 2 26 * l) / 1 / 2 + 1)),
       .fin (Real.logb 10 ((2 : ℝ) ^ (Real.logb 2 26 * l / 2) / 1 / 2 + 1))))
    :=
  sweep_zero_pool_c10 [' '] (by decide) 1 1 one_pos one_pos

end QPSA
